import Mathlib

/-!
Verification of the swarm-mcp-factory pipeline core.

Shallow embedding of:
  - `MCPValidator.checkProtocol` (validator): regex-driven static compliance
    checks over a generated `src/index.ts` document,
  - `MCPValidator.validate`: aggregation of the sub-checks into a
    `valid`/`errors`/`warnings` verdict,
  - `processJob` (API server): the five-stage pipeline state machine with its
    critical-error classification and terminal job records,
  - `GET /api/jobs` (job listing), `MCPRegistry.register` (upsert),
    `DELETE /api/servers/:name` and `GET /api/servers/:name` route handlers.

JavaScript strings are modelled as `List Char` (named `Str` below); JavaScript
timestamps (`new Date()`) are modelled as a Bool flag recording whether the
field was set; external collaborators (the LLM parser call, the filesystem,
shell tools, the SQLite driver) are modelled as oracle inputs whose outcomes
are parameters of the embedded functions.
-/

set_option maxRecDepth 100000

abbrev Str := List Char

/-! ## JavaScript string primitives -/

/-- `pat` is a leading segment of the second argument (character-wise). -/
def strStartsWith : Str → Str → Bool
  | [], _ => true
  | _ :: _, [] => false
  | p :: ps, c :: cs => p == c && strStartsWith ps cs

/-- JavaScript `s.includes(pat)`: `pat` occurs contiguously somewhere in `s`. -/
def strIncludes (pat : Str) : Str → Bool
  | [] => strStartsWith pat []
  | c :: cs => strStartsWith pat (c :: cs) || strIncludes pat cs

/-- The whitespace class of the JavaScript regex `\s`, restricted to the ASCII
range (the generated documents the checker scans are ASCII). -/
def isWsChar (c : Char) : Bool :=
  c == ' ' || c == '\t' || c == '\n' || c == '\r' || c == '\x0b' || c == '\x0c'

def dropWs (s : Str) : Str := s.dropWhile isWsChar

def isQuoteChar (c : Char) : Bool := c == '\x27' || c == '"'

/-! ## Regex pattern scanners for `MCPValidator.checkProtocol`

Each JavaScript regex used by `checkProtocol` is embedded as a step function
that tries to match at the head of a suffix of the document and, on success,
returns the captured group together with the rest of the document after the
match.  `scanAll` then mirrors a global `regex.exec` loop: on a match it
resumes after the match, otherwise it advances one character. -/

def scanAll (step : Str → Option (Str × Str)) : Nat → Str → List Str
  | 0, _ => []
  | _, [] => []
  | fuel + 1, c :: cs =>
    match step (c :: cs) with
    | some (cap, rest) => cap :: scanAll step fuel rest
    | none => scanAll step fuel cs

/-- `['"]([^'"]+)['"]`: a quote, one or more non-quote characters (captured),
a quote.  As in the source regex, the two quotes need not be the same kind. -/
def stepQuoted (s : Str) : Option (Str × Str) :=
  match s with
  | [] => none
  | q :: rest =>
    if isQuoteChar q then
      let cap := rest.takeWhile (fun c => !isQuoteChar c)
      let rest2 := rest.drop cap.length
      if cap.isEmpty then none
      else
        match rest2 with
        | q2 :: rest3 => if isQuoteChar q2 then some (cap, rest3) else none
        | [] => none
    else none

/-- `name:\s*['"]([^'"]+)['"]` (used inside the first `tools: [...]` block). -/
def stepNamePat (s : Str) : Option (Str × Str) :=
  if strStartsWith "name:".data s then stepQuoted (dropWs (s.drop 5)) else none

/-- `case\s*['"]([^'"]+)['"]\s*:` over the whole document. -/
def stepCasePat (s : Str) : Option (Str × Str) :=
  if strStartsWith "case".data s then
    match stepQuoted (dropWs (s.drop 4)) with
    | some (cap, rest) =>
      match dropWs rest with
      | ':' :: rest3 => some (cap, rest3)
      | _ => none
    | none => none
  else none

/-- `request\.params\.name\s*===?\s*['"]([^'"]+)['"]`: the optional third `=`
is tried first and the scanner backtracks without it, as the regex engine
does. -/
def stepIfEqPat (s : Str) : Option (Str × Str) :=
  if strStartsWith "request.params.name".data s then
    match dropWs (s.drop 19) with
    | '=' :: '=' :: r2 =>
      match r2 with
      | '=' :: r3 =>
        match stepQuoted (dropWs r3) with
        | some res => some res
        | none => stepQuoted (dropWs r2)
      | _ => stepQuoted (dropWs r2)
    | _ => none
  else none

/-- `tools:\s*\[([\s\S]*?)\]` tried at the head of `s`: the literal `tools:`,
whitespace, `[`, then the lazily matched body up to the first `]`. -/
def toolsBlockAt (s : Str) : Option Str :=
  if strStartsWith "tools:".data s then
    match dropWs (s.drop 6) with
    | '[' :: r2 =>
      let body := r2.takeWhile (fun c => !(c == ']'))
      if (r2.drop body.length).isEmpty then none else some body
    | _ => none
  else none

/-- `content.match(/tools:\s*\[([\s\S]*?)\]/)`: the first position at which
the block pattern matches. -/
def firstToolsBlock : Str → Option Str
  | [] => none
  | c :: cs =>
    match toolsBlockAt (c :: cs) with
    | some b => some b
    | none => firstToolsBlock cs

/-- `\s*\n` with backtracking: some whitespace characters followed by a
newline (the newline itself is whitespace, so this asks for a newline inside
the leading whitespace run). -/
def wsThenNewline : Str → Bool
  | [] => false
  | c :: cs => if c == '\n' then true else if isWsChar c then wsThenNewline cs else false

/-- The lookahead `(?=\},?\s*\n)` of the `inputSchema` regex. -/
def closeBraceLookahead : Str → Bool
  | '\x7d' :: rest =>
    (match rest with
     | ',' :: rest2 => wsThenNewline rest2
     | _ => wsThenNewline rest)
  | _ => false

/-- Lazy body of `([\s\S]*?)(?=\},?\s*\n)`: the shortest leading segment whose
end position satisfies the lookahead. -/
def findSchemaBody : Str → Option (Str × Str)
  | [] => none
  | c :: cs =>
    if closeBraceLookahead (c :: cs) then some ([], c :: cs)
    else
      match findSchemaBody cs with
      | some (b, rest) => some (c :: b, rest)
      | none => none

/-- `inputSchema:\s*\{([\s\S]*?)(?=\},?\s*\n)` tried at the head of `s`. -/
def stepInputSchemaPat (s : Str) : Option (Str × Str) :=
  if strStartsWith "inputSchema:".data s then
    match dropWs (s.drop 12) with
    | '\x7b' :: r2 => findSchemaBody r2
    | _ => none
  else none

/-! ## Declared / handled interface sets -/

/-- JavaScript `Set.add`: keep first occurrence, ignore repeats. -/
def setAdd (l : List Str) (s : Str) : List Str := if s ∈ l then l else l ++ [s]

def toSetList (l : List Str) : List Str := l.foldl setAdd []

/-- `definedTools` in `checkProtocol`: the `name: '...'` captures inside the
first `tools: [...]` block, collected into a Set. -/
def definedToolNames (content : Str) : List Str :=
  match firstToolsBlock content with
  | some body => toSetList (scanAll stepNamePat body.length body)
  | none => []

/-- `handledTools` in `checkProtocol`: `case '...':` captures over the whole
document, then `request.params.name === '...'` captures, collected into a
Set. -/
def handledToolNames (content : Str) : List Str :=
  toSetList (scanAll stepCasePat content.length content ++
             scanAll stepIfEqPat content.length content)

/-- Bodies of all `inputSchema:` object literals found by the global scan. -/
def inputSchemaBodies (content : Str) : List Str :=
  scanAll stepInputSchemaPat content.length content

/-! ## Issue strings pushed by `checkProtocol` -/

def missingToolMsg (name : Str) : Str :=
  "Missing tool handler for \x27".data ++ name ++ "\x27".data

def undeclaredToolMsg (name : Str) : Str :=
  "Handler for undeclared tool \x27".data ++ name ++ "\x27".data

def msgMissingListTools : Str := "Missing ListToolsRequestSchema handler".data

def msgMissingCallTool : Str := "Missing CallToolRequestSchema handler".data

def msgSchemaType : Str := "inputSchema missing \"type\" property".data

def msgMissingConnect : Str := "Missing server connection/run call".data

/-- One `inputSchema missing "type" property` issue per schema body lacking
both `type:` and `"type"`. -/
def inputSchemaIssues (content : Str) : List Str :=
  ((inputSchemaBodies content).filter
    (fun b => !(strIncludes "type:".data b) && !(strIncludes "\"type\"".data b))).map
    (fun _ => msgSchemaType)

structure ComplianceReport where
  compliant : Bool
  issues : List Str
deriving DecidableEq

/-- `MCPValidator.checkProtocol`, given the text of `src/index.ts` (the
handler first reads that file; a missing file is an earlier return not
involved in the per-document claims).  `compliant` starts `true` and is set
`false` exactly by: a missing `ListToolsRequestSchema` marker, a missing
`CallToolRequestSchema` marker, each declared tool without a handler, and a
missing `server.connect`/`.run(` call; issues are pushed in the source's
order. -/
def checkProtocol (content : Str) : ComplianceReport :=
  let hasListTools := strIncludes "ListToolsRequestSchema".data content
  let hasCallTool := strIncludes "CallToolRequestSchema".data content
  let defined := definedToolNames content
  let handled := handledToolNames content
  let missing := defined.filter (fun t => !(handled.contains t))
  let undeclared := handled.filter (fun t => !(defined.contains t) && !(t == "default".data))
  let hasConnect := strIncludes "server.connect".data content || strIncludes ".run(".data content
  { compliant := hasListTools && hasCallTool && missing.isEmpty && hasConnect
    issues :=
      (if hasListTools then [] else [msgMissingListTools]) ++
      (if hasCallTool then [] else [msgMissingCallTool]) ++
      missing.map missingToolMsg ++
      undeclared.map undeclaredToolMsg ++
      inputSchemaIssues content ++
      (if hasConnect then [] else [msgMissingConnect]) }

/-- A generated document that declares `get_forecast` in the capability list
but has no matching handler branch (spec Scenario C). -/
def docScenarioC : Str :=
  ("ListToolsRequestSchema CallToolRequestSchema server.connect\ntools: [ name: \x27get_forecast\x27 ]").data

/-- A generated document with a handler branch for `legacy_tool` that is not
in the declared list, everything else consistent (spec Scenario D). -/
def docScenarioD : Str :=
  ("ListToolsRequestSchema CallToolRequestSchema server.connect\ntools: [ name: \x27get_weather\x27 ]\nswitch (name) \x7b case \x27get_weather\x27: return 1; case \x27legacy_tool\x27: return 2; \x7d").data

/-! ## Structural lemmas about the interface sets and issue strings -/

theorem setAdd_nodup (l : List Str) (s : Str) (h : l.Nodup) : (setAdd l s).Nodup := by
  unfold setAdd
  split
  · exact h
  · next hni => simpa using List.Nodup.append h (by simp) (by simpa using hni)

theorem foldl_setAdd_nodup (l acc : List Str) (h : acc.Nodup) : (l.foldl setAdd acc).Nodup := by
  induction l generalizing acc with
  | nil => exact h
  | cons c cs ih => exact ih (setAdd acc c) (setAdd_nodup acc c h)

theorem toSetList_nodup (l : List Str) : (toSetList l).Nodup :=
  foldl_setAdd_nodup l [] List.nodup_nil

theorem definedToolNames_nodup (content : Str) : (definedToolNames content).Nodup := by
  unfold definedToolNames
  split
  · exact toSetList_nodup _
  · exact List.nodup_nil

theorem handledToolNames_nodup (content : Str) : (handledToolNames content).Nodup :=
  toSetList_nodup _

theorem missingToolMsg_inj : Function.Injective missingToolMsg := by
  intro a b h
  unfold missingToolMsg at h
  rw [List.append_assoc, List.append_assoc] at h
  exact List.append_cancel_right (List.append_cancel_left h)

theorem undeclaredToolMsg_inj : Function.Injective undeclaredToolMsg := by
  intro a b h
  unfold undeclaredToolMsg at h
  rw [List.append_assoc, List.append_assoc] at h
  exact List.append_cancel_right (List.append_cancel_left h)

theorem missingToolMsg_take9 (name : Str) : (missingToolMsg name).take 9 = "Missing t".data := by
  unfold missingToolMsg
  rw [List.append_assoc, List.take_append_of_le_length (by decide)]
  decide

theorem undeclaredToolMsg_take9 (name : Str) :
    (undeclaredToolMsg name).take 9 = "Handler f".data := by
  unfold undeclaredToolMsg
  rw [List.append_assoc, List.take_append_of_le_length (by decide)]
  decide

theorem missingToolMsg_ne_undeclared (a b : Str) : missingToolMsg a ≠ undeclaredToolMsg b := by
  intro h
  have h9 := congrArg (List.take 9) h
  rw [missingToolMsg_take9, undeclaredToolMsg_take9] at h9
  exact absurd h9 (by decide)

theorem missingToolMsg_ne_listTools (a : Str) : missingToolMsg a ≠ msgMissingListTools := by
  intro h
  have h9 := congrArg (List.take 9) h
  rw [missingToolMsg_take9] at h9
  exact absurd h9 (by decide)

theorem missingToolMsg_ne_callTool (a : Str) : missingToolMsg a ≠ msgMissingCallTool := by
  intro h
  have h9 := congrArg (List.take 9) h
  rw [missingToolMsg_take9] at h9
  exact absurd h9 (by decide)

theorem missingToolMsg_ne_schemaType (a : Str) : missingToolMsg a ≠ msgSchemaType := by
  intro h
  have h9 := congrArg (List.take 9) h
  rw [missingToolMsg_take9] at h9
  exact absurd h9 (by decide)

theorem missingToolMsg_ne_connect (a : Str) : missingToolMsg a ≠ msgMissingConnect := by
  intro h
  have h9 := congrArg (List.take 9) h
  rw [missingToolMsg_take9] at h9
  exact absurd h9 (by decide)

theorem undeclaredToolMsg_ne_listTools (a : Str) : undeclaredToolMsg a ≠ msgMissingListTools := by
  intro h
  have h9 := congrArg (List.take 9) h
  rw [undeclaredToolMsg_take9] at h9
  exact absurd h9 (by decide)

theorem undeclaredToolMsg_ne_callTool (a : Str) : undeclaredToolMsg a ≠ msgMissingCallTool := by
  intro h
  have h9 := congrArg (List.take 9) h
  rw [undeclaredToolMsg_take9] at h9
  exact absurd h9 (by decide)

theorem undeclaredToolMsg_ne_schemaType (a : Str) : undeclaredToolMsg a ≠ msgSchemaType := by
  intro h
  have h9 := congrArg (List.take 9) h
  rw [undeclaredToolMsg_take9] at h9
  exact absurd h9 (by decide)

theorem undeclaredToolMsg_ne_connect (a : Str) : undeclaredToolMsg a ≠ msgMissingConnect := by
  intro h
  have h9 := congrArg (List.take 9) h
  rw [undeclaredToolMsg_take9] at h9
  exact absurd h9 (by decide)

theorem count_inputSchemaIssues_missing (content : Str) (name : Str) :
    (inputSchemaIssues content).count (missingToolMsg name) = 0 := by
  rw [List.count_eq_zero]
  intro hmem
  unfold inputSchemaIssues at hmem
  rcases List.mem_map.mp hmem with ⟨_, _, hb⟩
  exact missingToolMsg_ne_schemaType name hb.symm

theorem count_inputSchemaIssues_undeclared (content : Str) (name : Str) :
    (inputSchemaIssues content).count (undeclaredToolMsg name) = 0 := by
  rw [List.count_eq_zero]
  intro hmem
  unfold inputSchemaIssues at hmem
  rcases List.mem_map.mp hmem with ⟨_, _, hb⟩
  exact undeclaredToolMsg_ne_schemaType name hb.symm

/-- Unfolded form of the verdict: `compliant` is set `false` exactly by the
two missing markers, by declared-without-handler names, and by the missing
connect call. -/
theorem checkProtocol_compliant_eq (content : Str) :
    (checkProtocol content).compliant =
    (strIncludes "ListToolsRequestSchema".data content &&
     strIncludes "CallToolRequestSchema".data content &&
     ((definedToolNames content).filter
       (fun t => !((handledToolNames content).contains t))).isEmpty &&
     (strIncludes "server.connect".data content || strIncludes ".run(".data content)) := rfl

/-- Unfolded form of the issue list, in source push order. -/
theorem checkProtocol_issues_eq (content : Str) :
    (checkProtocol content).issues =
    (if strIncludes "ListToolsRequestSchema".data content then [] else [msgMissingListTools]) ++
    (if strIncludes "CallToolRequestSchema".data content then [] else [msgMissingCallTool]) ++
    ((definedToolNames content).filter
      (fun t => !((handledToolNames content).contains t))).map missingToolMsg ++
    ((handledToolNames content).filter
      (fun t => !((definedToolNames content).contains t) &&
        !(t == "default".data))).map undeclaredToolMsg ++
    inputSchemaIssues content ++
    (if strIncludes "server.connect".data content || strIncludes ".run(".data content
      then [] else [msgMissingConnect]) := rfl

theorem count_map_inj (l : List Str) (f : Str → Str) (hf : Function.Injective f) (x : Str) :
    (l.map f).count (f x) = l.count x := by
  induction l with
  | nil => rfl
  | cons a as ih =>
    simp only [List.map_cons, List.count_cons, ih]
    congr 1
    by_cases h : a = x
    · simp [h]
    · have hne : ¬ f a = f x := fun hc => h (hf hc)
      simp [h, hne]

theorem count_singleton_ne (a b : Str) (h : a ≠ b) : List.count a [b] = 0 := by
  rw [List.count_eq_zero]
  simpa using h

theorem count_undeclaredMap_missing (content name : Str) :
    List.count (missingToolMsg name) (((handledToolNames content).filter
      (fun t => !((definedToolNames content).contains t) &&
        !(t == "default".data))).map undeclaredToolMsg) = 0 := by
  rw [List.count_eq_zero]
  intro hmem
  rcases List.mem_map.mp hmem with ⟨m, _, hb⟩
  exact missingToolMsg_ne_undeclared name m hb.symm

theorem count_missingToolMsg_issues (content name : Str) :
    ((checkProtocol content).issues).count (missingToolMsg name) =
    ((definedToolNames content).filter
      (fun t => !((handledToolNames content).contains t))).count name := by
  rw [checkProtocol_issues_eq]
  simp only [List.count_append]
  rw [count_map_inj _ missingToolMsg missingToolMsg_inj name,
      count_inputSchemaIssues_missing,
      count_undeclaredMap_missing]
  split_ifs <;>
    simp [count_singleton_ne _ _ (missingToolMsg_ne_listTools name),
          count_singleton_ne _ _ (missingToolMsg_ne_callTool name),
          count_singleton_ne _ _ (missingToolMsg_ne_connect name)]

theorem count_eq_one_of_mem_nodup (l : List Str) (h : l.Nodup) (a : Str) (ha : a ∈ l) :
    l.count a = 1 := by
  induction l with
  | nil => simp at ha
  | cons c cs ih =>
    rw [List.nodup_cons] at h
    rw [List.count_cons]
    by_cases hac : a = c
    · have hnot : a ∉ cs := by rw [hac]; exact h.1
      rw [List.count_eq_zero.mpr hnot]
      simp [hac]
    · have hacs : a ∈ cs := by
        rcases List.mem_cons.mp ha with h1 | h1
        · exact absurd h1 hac
        · exact h1
      rw [ih h.2 hacs]
      have hca : ¬ c = a := fun hh => hac hh.symm
      simp [hac, hca]

theorem filter_not_isEmpty_eq_all (l : List Str) (p : Str → Bool) :
    (l.filter (fun x => !(p x))).isEmpty = l.all p := by
  induction l with
  | nil => rfl
  | cons c cs ih =>
    by_cases h : p c = true <;> simp [List.filter_cons, h, ih]

/-- Claim C2: if some declared tool name has no matching handler (case label
or equality comparison), the compliance check reports `compliant = false` and
`issues` contains exactly one `Missing tool handler for '<name>'` entry for
that unmatched declared name. -/
theorem checkProtocol_missing_handler_fatal (content name : Str)
    (hdecl : name ∈ definedToolNames content)
    (hnh : name ∉ handledToolNames content) :
    (checkProtocol content).compliant = false ∧
    ((checkProtocol content).issues).count (missingToolMsg name) = 1 := by
  have hmemf : name ∈ (definedToolNames content).filter
      (fun t => !((handledToolNames content).contains t)) := by
    rw [List.mem_filter]
    refine ⟨hdecl, ?_⟩
    simpa using hnh
  constructor
  · have hne : ((definedToolNames content).filter
        (fun t => !((handledToolNames content).contains t))).isEmpty = false :=
      List.isEmpty_eq_false.mpr (List.ne_nil_of_mem hmemf)
    rw [checkProtocol_compliant_eq, hne]
    simp
  · rw [count_missingToolMsg_issues]
    exact count_eq_one_of_mem_nodup _
      (List.Nodup.filter _ (definedToolNames_nodup content)) _ hmemf

/-- Witness for C2 at the Scenario C document: `get_forecast` is declared but
unhandled; the report is non-compliant with exactly one missing-handler issue
for it. -/
theorem checkProtocol_missing_handler_fatal_witness :
    "get_forecast".data ∈ definedToolNames docScenarioC ∧
    "get_forecast".data ∉ handledToolNames docScenarioC ∧
    (checkProtocol docScenarioC).compliant = false ∧
    ((checkProtocol docScenarioC).issues).count (missingToolMsg "get_forecast".data) = 1 := by
  refine ⟨by decide, by decide, ?_, ?_⟩
  · exact (checkProtocol_missing_handler_fatal docScenarioC "get_forecast".data
      (by decide) (by decide)).1
  · exact (checkProtocol_missing_handler_fatal docScenarioC "get_forecast".data
      (by decide) (by decide)).2

/-- Claim C3: a handled name absent from the declared set and different from
the reserved `default` marker contributes a `Handler for undeclared tool
'<name>'` issue; the verdict `compliant` is computed only from the two
markers, declared-handler coverage and the connect call — so an undeclared
handler never makes the report non-compliant by itself; and a handled name
equal to `default` never produces an undeclared-tool issue. -/
theorem checkProtocol_undeclared_nonfatal (content name : Str) :
    (name ∈ handledToolNames content → name ∉ definedToolNames content →
      name ≠ "default".data →
      undeclaredToolMsg name ∈ (checkProtocol content).issues) ∧
    (checkProtocol content).compliant =
      (strIncludes "ListToolsRequestSchema".data content &&
       strIncludes "CallToolRequestSchema".data content &&
       (definedToolNames content).all (fun t => (handledToolNames content).contains t) &&
       (strIncludes "server.connect".data content || strIncludes ".run(".data content)) ∧
    undeclaredToolMsg "default".data ∉ (checkProtocol content).issues := by
  refine ⟨?_, ?_, ?_⟩
  · intro hh hnd hne
    have hmemf : name ∈ (handledToolNames content).filter
        (fun t => !((definedToolNames content).contains t) && !(t == "default".data)) := by
      rw [List.mem_filter]
      refine ⟨hh, ?_⟩
      simp only [Bool.and_eq_true, Bool.not_eq_true', beq_eq_false_iff_ne]
      constructor
      · simpa using hnd
      · exact hne
    rw [checkProtocol_issues_eq]
    simp only [List.mem_append]
    exact Or.inl (Or.inl (Or.inr (List.mem_map_of_mem undeclaredToolMsg hmemf)))
  · rw [checkProtocol_compliant_eq]
    rw [filter_not_isEmpty_eq_all (definedToolNames content)
      (fun t => (handledToolNames content).contains t)]
  · intro hmem
    rw [checkProtocol_issues_eq] at hmem
    simp only [List.mem_append] at hmem
    rcases hmem with ((((h1 | h2) | h3) | h4) | h5) | h6
    · revert h1
      split
      · simp
      · simpa using undeclaredToolMsg_ne_listTools "default".data
    · revert h2
      split
      · simp
      · simpa using undeclaredToolMsg_ne_callTool "default".data
    · rcases List.mem_map.mp h3 with ⟨m, _, hb⟩
      exact missingToolMsg_ne_undeclared m "default".data hb
    · rcases List.mem_map.mp h4 with ⟨m, hm, hb⟩
      have hmd : m = "default".data := undeclaredToolMsg_inj hb
      rw [List.mem_filter, hmd] at hm
      simp at hm
    · unfold inputSchemaIssues at h5
      rcases List.mem_map.mp h5 with ⟨_, _, hb⟩
      exact undeclaredToolMsg_ne_schemaType "default".data hb.symm
    · revert h6
      split
      · simp
      · simpa using undeclaredToolMsg_ne_connect "default".data

/-- Witness for C3 at the Scenario D document: the undeclared `legacy_tool`
handler is reported as an issue while the report stays compliant. -/
theorem checkProtocol_undeclared_nonfatal_witness :
    undeclaredToolMsg "legacy_tool".data ∈ (checkProtocol docScenarioD).issues ∧
    (checkProtocol docScenarioD).compliant = true :=
  ⟨(checkProtocol_undeclared_nonfatal docScenarioD "legacy_tool".data).1
      (by decide) (by decide) (by decide),
   by decide⟩

/-! ## `MCPValidator.validate`: aggregation of the sub-checks

A validation error is either a plain string or an object.  The objects pushed
by the validator carry a `type` tag and either a `message` field (typescript,
lint, filesystem, dependency entries) or an `issue` field (protocol entries).
`vErrorMsgJs` models `typeof e === 'string' ? e : (e.message || String(e))`:
on an object without a `message` field, `String(e)` yields the text
`[object Object]`. -/

inductive VError where
  | str (s : Str)
  | obj (type_ : Str) (message : Option Str) (issue : Option Str)
deriving DecidableEq

def objectObjectStr : Str := "[object Object]".data

def vErrorMsgJs : VError → Str
  | .str s => s
  | .obj _ m _ => m.getD objectObjectStr

/-- `String(e)` as used by `criticalErrors.join('; ')`. -/
def vErrorToStringJs : VError → Str
  | .str s => s
  | .obj _ _ _ => objectObjectStr

/-- The critical-error classification in `processJob`:
`msg.includes('TypeScript') || msg.includes('import') || msg.includes('syntax')`. -/
def isCriticalVError (e : VError) : Bool :=
  strIncludes "TypeScript".data (vErrorMsgJs e) ||
  strIncludes "import".data (vErrorMsgJs e) ||
  strIncludes "syntax".data (vErrorMsgJs e)

structure ValidationResult where
  valid : Bool
  errors : List VError
  warnings : List VError
deriving DecidableEq

structure TsCheckResult where
  success : Bool
  errors : List VError
deriving DecidableEq

structure LintCheckResult where
  errors : List VError
  warnings : List VError
deriving DecidableEq

structure DepsCheckResult where
  valid : Bool
  missing : List Str
  warnings : List VError
deriving DecidableEq

/-- `MCPValidator.validate` after the directory-existence guard: the four
sub-check results (typescript and lint run external tools, dependency checks
read `package.json`; they are oracle inputs here — the protocol check is the
embedded `checkProtocol`) are aggregated into errors/warnings, and
`valid` is `errors.length === 0`. -/
def validateFromChecks (ts : TsCheckResult) (lint : LintCheckResult)
    (protocol : ComplianceReport) (deps : DepsCheckResult) : ValidationResult :=
  let errors :=
    (if ts.success then [] else ts.errors) ++
    lint.errors ++
    (if protocol.compliant then []
     else protocol.issues.map (fun i => VError.obj "protocol".data none (some i))) ++
    (if deps.valid then []
     else deps.missing.map
       (fun d => VError.obj "dependency".data
         (some ("Missing required dependency: ".data ++ d)) none))
  { valid := errors.isEmpty
    errors := errors
    warnings := lint.warnings ++ deps.warnings }

/-! ## `processJob`: the five-stage pipeline state machine

The collaborator calls of each stage (the LLM parser, the file-emitting
generator, the validator's external sub-checks, the packager, the registry
write) are oracle inputs collected in `PipelineEnv`; `Except.error m` models
the call throwing with message `m`.  `new Date()` timestamps are modelled as
a Bool set-flag. -/

structure SpecObj where
  name : Option Str
  description : Option Str
  version : Option Str
deriving DecidableEq

/-- JavaScript falsiness of `spec.name`: absent or the empty string. -/
def jsFalsyOptStr : Option Str → Bool
  | none => true
  | some s => s.isEmpty

structure GenOut where
  serverDir : Str
deriving DecidableEq

structure PkgOut where
  packagePath : Option Str
deriving DecidableEq

structure RegisterResult where
  id : Str
  name : Str
  version : Str
  action : Str
deriving DecidableEq

instance {ε α : Type} [DecidableEq ε] [DecidableEq α] : DecidableEq (Except ε α) := fun x y =>
  match x, y with
  | .error a, .error b =>
    if h : a = b then .isTrue (h ▸ rfl) else .isFalse (fun hc => h (Except.error.inj hc))
  | .error _, .ok _ => .isFalse (fun hc => Except.noConfusion hc)
  | .ok _, .error _ => .isFalse (fun hc => Except.noConfusion hc)
  | .ok a, .ok b =>
    if h : a = b then .isTrue (h ▸ rfl) else .isFalse (fun hc => h (Except.ok.inj hc))

structure PipelineEnv where
  apiKeySet : Bool
  parseOutcome : Except Str SpecObj
  genOutcome : Except Str GenOut
  valOutcome : Except Str ValidationResult
  pkgOutcome : Except Str PkgOut
  regOutcome : Except Str RegisterResult
deriving DecidableEq

structure JobResultPayload where
  name : Option Str
  serverDir : Str
  package_path : Option Str
  description : Str
  spec : SpecObj
  manifest : RegisterResult
  stages_completed : List Str
deriving DecidableEq

structure JobRecord where
  status : Str
  stage : Str
  created_at : Bool
  completed_at : Bool
  failed_at : Bool
  result : Option JobResultPayload
  errors : Option (List Str)
  stages_completed : Option (List Str)
deriving DecidableEq

/-- The `criticalErrors` local of `processJob`'s validation stage: computed
only when the validator's verdict is not valid, it keeps the errors whose
message text matches a fatal keyword. -/
def criticalErrorsOf (validation : ValidationResult) : List VError :=
  if validation.valid then [] else validation.errors.filter isCriticalVError

/-- The terminal record written by `processJob`'s catch block. -/
def failRecord (stage : Str) (stages : List Str) (msg : Str) : JobRecord :=
  { status := "failed".data, stage := stage, created_at := true,
    completed_at := false, failed_at := true,
    result := none, errors := some [msg], stages_completed := some stages }

/-- `processJob`: runs the five stages in order, pushing each stage's name
onto `stages` as the stage starts and updating `job.stage`; any throw lands
in the catch block, which writes the failed record with the current
`job.stage` and `stages`; full success writes the complete record whose
payload carries `stages_completed`. -/
def processJob (env : PipelineEnv) : JobRecord :=
  if !env.apiKeySet then
    failRecord "queued".data [] "ANTHROPIC_API_KEY environment variable not set".data
  else
    match env.parseOutcome with
    | .error m => failRecord "parsing".data ["parse".data] m
    | .ok spec =>
      if jsFalsyOptStr spec.name then
        failRecord "parsing".data ["parse".data] "Parser failed to generate valid spec".data
      else
        match env.genOutcome with
        | .error m => failRecord "generating".data ["parse".data, "generate".data] m
        | .ok gen =>
          match env.valOutcome with
          | .error m =>
            failRecord "validating".data ["parse".data, "generate".data, "validate".data] m
          | .ok validation =>
            if !(criticalErrorsOf validation).isEmpty then
              failRecord "validating".data ["parse".data, "generate".data, "validate".data]
                ("Validation failed: ".data ++
                  List.intercalate "; ".data
                    ((criticalErrorsOf validation).map vErrorToStringJs))
            else
              match env.pkgOutcome with
              | .error m =>
                failRecord "packaging".data
                  ["parse".data, "generate".data, "validate".data, "package".data] m
              | .ok pkg =>
                match env.regOutcome with
                | .error m =>
                  failRecord "registering".data
                    ["parse".data, "generate".data, "validate".data, "package".data,
                     "register".data] m
                | .ok manifest =>
                  { status := "complete".data, stage := "done".data, created_at := true,
                    completed_at := true, failed_at := false,
                    result := some
                      { name := spec.name, serverDir := gen.serverDir,
                        package_path := pkg.packagePath,
                        description := spec.description.getD [],
                        spec := spec, manifest := manifest,
                        stages_completed :=
                          ["parse".data, "generate".data, "validate".data,
                           "package".data, "register".data] },
                    errors := none, stages_completed := none }

/-! ## Pipeline claims -/

/-- Claim C4: every terminal record produced by the pipeline has exactly one
of result/errors populated and exactly one of the completion/failure
timestamps set: complete records carry a result and `completed_at` and no
errors and no `failed_at`; failed records carry a non-empty error list and
`failed_at` and no result and no `completed_at`. -/
theorem processJob_terminal_exclusive (env : PipelineEnv) :
    ((processJob env).status = "complete".data ∨ (processJob env).status = "failed".data) ∧
    ((processJob env).status = "complete".data →
      (processJob env).result.isSome = true ∧ (processJob env).errors = none ∧
      (processJob env).completed_at = true ∧ (processJob env).failed_at = false) ∧
    ((processJob env).status = "failed".data →
      (processJob env).result = none ∧
      (∃ es, (processJob env).errors = some es ∧ es ≠ []) ∧
      (processJob env).failed_at = true ∧ (processJob env).completed_at = false) := by
  have hne : "failed".data ≠ "complete".data := by decide
  have hne2 : "complete".data ≠ "failed".data := by decide
  unfold processJob
  repeat' split
  all_goals simp [failRecord, hne, hne2]

def envTerminalW : PipelineEnv :=
  { apiKeySet := false,
    parseOutcome := .error "unused".data, genOutcome := .error "unused".data,
    valOutcome := .error "unused".data, pkgOutcome := .error "unused".data,
    regOutcome := .error "unused".data }

/-- Witness for C4 at a concrete failing environment. -/
theorem processJob_terminal_exclusive_witness :
    (processJob envTerminalW).result = none ∧ (processJob envTerminalW).failed_at = true := by
  have h := (processJob_terminal_exclusive envTerminalW).2.2 (by decide)
  exact ⟨h.1, h.2.2.1⟩

/-- Claim C6 (as realised in the code, whose literal stage names are
`parse`/`generate`/`validate`/`package`/`register` for the spec's
interpret/generate/validate/package/register): when all five stages succeed
the terminal record is `complete` at stage `done` with the canonical
five-stage sequence recorded in order. -/
theorem processJob_all_success (env : PipelineEnv) (spec : SpecObj) (gen : GenOut)
    (validation : ValidationResult) (pkg : PkgOut) (reg : RegisterResult)
    (hkey : env.apiKeySet = true)
    (hp : env.parseOutcome = .ok spec) (hname : jsFalsyOptStr spec.name = false)
    (hg : env.genOutcome = .ok gen)
    (hv : env.valOutcome = .ok validation) (hvalid : validation.valid = true)
    (hk : env.pkgOutcome = .ok pkg) (hr : env.regOutcome = .ok reg) :
    (processJob env).status = "complete".data ∧
    (processJob env).stage = "done".data ∧
    ((processJob env).result.map (fun r => r.stages_completed)) =
      some ["parse".data, "generate".data, "validate".data,
            "package".data, "register".data] := by
  unfold processJob
  rw [hkey, hp, hg, hv, hk, hr]
  simp [hname, hvalid, criticalErrorsOf]

def envAllSuccess : PipelineEnv :=
  { apiKeySet := true,
    parseOutcome := .ok
      { name := some "weather".data, description := some "Weather lookup".data,
        version := some "1.0.0".data },
    genOutcome := .ok { serverDir := "/opt/swarm-mcp-factory/output/weather/mcp-weather".data },
    valOutcome := .ok { valid := true, errors := [], warnings := [] },
    pkgOutcome := .ok { packagePath := none },
    regOutcome := .ok
      { id := "mcp_1".data, name := "weather".data, version := "1.0.0".data,
        action := "created".data } }

/-- Witness for C6 at a concrete all-success environment. -/
theorem processJob_all_success_witness :
    (processJob envAllSuccess).status = "complete".data ∧
    ((processJob envAllSuccess).result.map (fun r => r.stages_completed)) =
      some ["parse".data, "generate".data, "validate".data,
            "package".data, "register".data] := by
  have h := processJob_all_success envAllSuccess _ _ _ _ _ rfl rfl (by decide) rfl rfl
    (by decide) rfl rfl
  exact ⟨h.1, h.2.2⟩

def envScenarioB : PipelineEnv :=
  { apiKeySet := true,
    parseOutcome := .ok { name := none, description := some "A weather tool".data,
                          version := some "1.0.0".data },
    genOutcome := .error "unused".data, valOutcome := .error "unused".data,
    pkgOutcome := .error "unused".data, regOutcome := .error "unused".data }

/-- Counterexample to claim C5 as stated: when the parsed spec lacks a name,
the job does fail at the parse stage with the "valid spec" message, but
`stages_completed` is `["parse"]`, not the empty list — the stage name is
recorded when the stage starts. -/
theorem processJob_parse_fail_counterexample :
    (processJob envScenarioB).status = "failed".data ∧
    (processJob envScenarioB).stage = "parsing".data ∧
    (processJob envScenarioB).errors =
      some ["Parser failed to generate valid spec".data] ∧
    (processJob envScenarioB).stages_completed = some ["parse".data] ∧
    (processJob envScenarioB).stages_completed ≠ some ([] : List Str) := by decide

/-- Claim C5 amended: a job whose interpret/parse stage yields a spec without
a usable name fails at stage `parsing` with the error
`Parser failed to generate valid spec` (which mentions "valid spec") and with
`stages_completed = ["parse"]` — the failing stage's name is present because
stage names are appended when a stage begins, not when it finishes. -/
theorem processJob_parse_fail_amended (env : PipelineEnv) (spec : SpecObj)
    (hkey : env.apiKeySet = true) (hp : env.parseOutcome = .ok spec)
    (hname : jsFalsyOptStr spec.name = true) :
    processJob env = failRecord "parsing".data ["parse".data]
      "Parser failed to generate valid spec".data := by
  unfold processJob
  rw [hkey, hp]
  simp [hname]

/-- Witness for the amended C5 at the Scenario B environment. -/
theorem processJob_parse_fail_amended_witness :
    processJob envScenarioB = failRecord "parsing".data ["parse".data]
      "Parser failed to generate valid spec".data :=
  processJob_parse_fail_amended envScenarioB _ rfl rfl (by decide)

def tsOkCheck : TsCheckResult := { success := true, errors := [] }

def lintOkCheck : LintCheckResult := { errors := [], warnings := [] }

def depsOkCheck : DepsCheckResult := { valid := true, missing := [], warnings := [] }

/-- An environment whose validation stage aggregates a fatal compliance
verdict: the Scenario C document's `Missing tool handler for 'get_forecast'`
protocol issue makes `validate` return `valid = false`, while typescript,
lint and dependency checks pass and the remaining collaborators succeed. -/
def envFatalCompliance : PipelineEnv :=
  { apiKeySet := true,
    parseOutcome := .ok
      { name := some "weather".data, description := some "Weather lookup".data,
        version := some "1.0.0".data },
    genOutcome := .ok { serverDir := "/opt/swarm-mcp-factory/output/weather/mcp-weather".data },
    valOutcome := .ok
      (validateFromChecks tsOkCheck lintOkCheck (checkProtocol docScenarioC) depsOkCheck),
    pkgOutcome := .ok { packagePath := none },
    regOutcome := .ok
      { id := "mcp_1".data, name := "weather".data, version := "1.0.0".data,
        action := "created".data } }

/-- Counterexample to claim C1 as stated: on a job whose validation stage
reports the fatal compliance issue `Missing tool handler for 'get_forecast'`
(so `validate` returns `valid = false`), the job does NOT transition to
failed — the protocol error object has no `message` field, stringifies to
`[object Object]`, matches no fatal keyword, and the pipeline continues
through packaging and registration to `complete`. -/
theorem processJob_fatal_compliance_counterexample :
    (validateFromChecks tsOkCheck lintOkCheck (checkProtocol docScenarioC) depsOkCheck).valid
      = false ∧
    (checkProtocol docScenarioC).issues = [missingToolMsg "get_forecast".data] ∧
    (processJob envFatalCompliance).status = "complete".data ∧
    (processJob envFatalCompliance).status ≠ "failed".data ∧
    (processJob envFatalCompliance).failed_at = false ∧
    ((processJob envFatalCompliance).result.map (fun r => r.stages_completed)) =
      some ["parse".data, "generate".data, "validate".data,
            "package".data, "register".data] := by decide

/-- Claim C1 amended: a non-clean validation verdict fails the job only when
some validation error's message text contains `TypeScript`, `import` or
`syntax`.  Protocol compliance issues are carried as objects without a
`message` field, so they never match and the job proceeds through packaging
and registration; when some error does match, the job fails at `validating`
with the joined critical messages and no later stage runs. -/
theorem processJob_critical_keyword_amended (env : PipelineEnv) (spec : SpecObj)
    (gen : GenOut) (validation : ValidationResult) (pkg : PkgOut) (reg : RegisterResult)
    (hkey : env.apiKeySet = true)
    (hp : env.parseOutcome = .ok spec) (hname : jsFalsyOptStr spec.name = false)
    (hg : env.genOutcome = .ok gen)
    (hv : env.valOutcome = .ok validation)
    (hk : env.pkgOutcome = .ok pkg) (hr : env.regOutcome = .ok reg) :
    (validation.errors.filter isCriticalVError = [] →
      (processJob env).status = "complete".data) ∧
    (validation.valid = false → validation.errors.filter isCriticalVError ≠ [] →
      processJob env = failRecord "validating".data
        ["parse".data, "generate".data, "validate".data]
        ("Validation failed: ".data ++ List.intercalate "; ".data
          ((validation.errors.filter isCriticalVError).map vErrorToStringJs))) := by
  constructor
  · intro hcrit
    have hco : criticalErrorsOf validation = [] := by
      unfold criticalErrorsOf
      split
      · rfl
      · exact hcrit
    unfold processJob
    rw [hkey, hp, hg, hv, hk, hr]
    simp [hname, hco]
  · intro hval hcrit
    have hco : criticalErrorsOf validation = validation.errors.filter isCriticalVError := by
      unfold criticalErrorsOf
      rw [hval]
      simp
    have hni : (criticalErrorsOf validation).isEmpty = false := by
      rw [hco]
      exact List.isEmpty_eq_false.mpr hcrit
    unfold processJob
    rw [hkey, hp, hg, hv]
    simp only [hname, hni, hco, Bool.not_true, Bool.not_false, if_false, if_true,
      ite_true, ite_false]
    simp
    intro hall
    refine absurd ?_ hcrit
    rw [List.filter_eq_nil_iff]
    intro a ha
    simp [hall a ha]

/-- Witness for the amended C1 at the fatal-compliance environment: every
validation error there fails the keyword test, so the job completes. -/
theorem processJob_critical_keyword_amended_witness :
    (processJob envFatalCompliance).status = "complete".data :=
  (processJob_critical_keyword_amended envFatalCompliance _ _
    (validateFromChecks tsOkCheck lintOkCheck (checkProtocol docScenarioC) depsOkCheck) _ _
    rfl rfl (by decide) rfl rfl rfl rfl).1 (by decide)

/-! ## `GET /api/jobs`: recent-job listing

`Array.from(jobs.entries())` iterates the in-memory job Map in insertion
order, which is creation order: a job id is inserted once at submission and
later `jobs.set` calls on the same id update in place without moving it.
`slice(-limit)` keeps the last `limit` entries of that order; `limit` is
`parseInt(req.query.limit) || 50`, hence a positive count, for which
`drop (length - limit)` with truncated subtraction is exactly `slice(-limit)`. -/

structure JobSummary where
  job_id : Str
  status : Str
  stage : Str
  created_at : Bool
  resultName : Option (Option Str)
deriving DecidableEq

/-- The per-entry projection of the route's `.map`: id, status, stage,
created_at, and `result ? {name: result.name} : undefined`. -/
def jobSummaryOf (id : Str) (job : JobRecord) : JobSummary :=
  { job_id := id, status := job.status, stage := job.stage,
    created_at := job.created_at,
    resultName := job.result.map (fun r => r.name) }

def listRecentJobs (jobs : List (Str × JobRecord)) (limit : Nat) : List JobSummary :=
  (jobs.drop (jobs.length - limit)).map (fun p => jobSummaryOf p.1 p.2)

def exampleJobsStore : List (Str × JobRecord) :=
  [("job_1".data, failRecord "parsing".data ["parse".data] "e1".data),
   ("job_2".data, failRecord "parsing".data ["parse".data] "e2".data),
   ("job_3".data, failRecord "parsing".data ["parse".data] "e3".data)]

/-- Counterexample to claim C7 as stated: with three jobs created in order
`job_1, job_2, job_3` and limit 2, the listing returns the two most recently
created jobs but in ascending creation order `[job_2, job_3]` — not
most-recent-first `[job_3, job_2]`. -/
theorem listRecentJobs_order_counterexample :
    (listRecentJobs exampleJobsStore 2).length = 2 ∧
    ((listRecentJobs exampleJobsStore 2).map (fun s => s.job_id)) =
      ["job_2".data, "job_3".data] ∧
    ((listRecentJobs exampleJobsStore 2).map (fun s => s.job_id)) ≠
      ["job_3".data, "job_2".data] := by decide

/-- Claim C7 amended: the listing returns at most `limit` records, namely the
`limit` most recently created ones (a suffix of the creation-ordered store,
with exactly `limit` records whenever at least that many exist), but in
ascending creation order — most recent last, not most-recent-first. -/
theorem listRecentJobs_amended (jobs : List (Str × JobRecord)) (limit : Nat) :
    (listRecentJobs jobs limit).length ≤ limit ∧
    (listRecentJobs jobs limit) <:+ (jobs.map (fun p => jobSummaryOf p.1 p.2)) ∧
    (limit ≤ jobs.length → (listRecentJobs jobs limit).length = limit) := by
  refine ⟨?_, ?_, ?_⟩
  · unfold listRecentJobs
    rw [List.length_map, List.length_drop]
    omega
  · unfold listRecentJobs
    rw [List.map_drop]
    exact List.drop_suffix _ _
  · intro h
    unfold listRecentJobs
    rw [List.length_map, List.length_drop]
    omega

/-- Witness for the amended C7 at the three-job store. -/
theorem listRecentJobs_amended_witness :
    (listRecentJobs exampleJobsStore 2).length = 2 :=
  (listRecentJobs_amended exampleJobsStore 2).2.2 (by decide)

/-! ## `MCPRegistry.register`: upsert keyed by unique name

The SQLite table `mcp_servers` (name TEXT UNIQUE NOT NULL) is modelled as a
list of rows in insertion order; `SELECT id ... WHERE name = ?` is the first
matching row, `UPDATE ... WHERE name = ?` rewrites every matching row (the
UNIQUE constraint keeps that to at most one), `INSERT` appends.  `generateId`
(Date.now + random suffix) and `new Date().toISOString()` are oracle inputs
`freshId` and `now`. -/

structure RegRow where
  id : Str
  name : Str
  version : Str
  description : Str
  spec : Str
  package_path : Option Str
  docker_image : Option Str
  claude_config : Str
  created_at : Str
  updated_at : Str
deriving DecidableEq

/-- The manifest argument of `register`, with absent fields as `none` (the
destructuring defaults fire on `undefined` only); `spec`/`claude_config`
stand for the `JSON.stringify` of the provided objects. -/
structure RegManifest where
  name : Option Str
  version : Option Str
  description : Option Str
  spec : Option Str
  package_path : Option Str
  docker_image : Option Str
  claude_config : Option Str
deriving DecidableEq

def register (freshId now : Str) (m : RegManifest) (st : List RegRow) :
    Except Str (RegisterResult × List RegRow) :=
  if jsFalsyOptStr m.name then .error "Server name is required".data
  else
    match st.find? (fun r => r.name == m.name.getD []) with
    | some existing =>
      .ok ({ id := existing.id, name := m.name.getD [],
             version := m.version.getD "1.0.0".data, action := "updated".data },
           st.map (fun r =>
             if r.name == m.name.getD [] then
               { r with version := m.version.getD "1.0.0".data,
                        description := m.description.getD [],
                        spec := m.spec.getD "\x7b\x7d".data,
                        package_path := m.package_path, docker_image := m.docker_image,
                        claude_config := m.claude_config.getD "\x7b\x7d".data,
                        updated_at := now }
             else r))
    | none =>
      .ok ({ id := freshId, name := m.name.getD [],
             version := m.version.getD "1.0.0".data, action := "created".data },
           st ++ [{ id := freshId, name := m.name.getD [],
                    version := m.version.getD "1.0.0".data,
                    description := m.description.getD [],
                    spec := m.spec.getD "\x7b\x7d".data,
                    package_path := m.package_path, docker_image := m.docker_image,
                    claude_config := m.claude_config.getD "\x7b\x7d".data,
                    created_at := now, updated_at := now }])

theorem countP_congr_fun {α : Type} (l : List α) (p q : α → Bool) (h : ∀ a ∈ l, p a = q a) :
    List.countP p l = List.countP q l := by
  induction l with
  | nil => rfl
  | cons c cs ih =>
    rw [List.countP_cons, List.countP_cons, h c (by simp), ih (fun a ha => h a (by simp [ha]))]

theorem filter_length_map_name_preserving (st : List RegRow) (upd : RegRow → RegRow)
    (hupd : ∀ r, (upd r).name = r.name) (name : Str) :
    ((st.map upd).filter (fun r => r.name == name)).length =
    (st.filter (fun r => r.name == name)).length := by
  rw [← List.countP_eq_length_filter, ← List.countP_eq_length_filter, List.countP_map]
  exact countP_congr_fun st _ _ (fun a _ => by simp [Function.comp, hupd a])

/-- Claim C8: registering a manifest whose name already exists updates the
existing row in place — returning action `updated` with the pre-existing
row's id — and leaves exactly one row for that name (under the table's
UNIQUE(name) invariant); registering a fresh name appends a new row and
returns action `created`, likewise leaving exactly one row for that name. -/
theorem register_upsert (freshId now : Str) (m : RegManifest) (st : List RegRow) (name : Str)
    (hname : m.name = some name) (hnonempty : name.isEmpty = false)
    (huniq : (st.filter (fun r => r.name == name)).length ≤ 1) :
    (∀ r0, st.find? (fun r => r.name == name) = some r0 →
      ∃ res st2, register freshId now m st = .ok (res, st2) ∧
        res.action = "updated".data ∧ res.id = r0.id ∧
        (st2.filter (fun r => r.name == name)).length = 1 ∧
        st2.length = st.length) ∧
    (st.find? (fun r => r.name == name) = none →
      ∃ res st2, register freshId now m st = .ok (res, st2) ∧
        res.action = "created".data ∧
        (st2.filter (fun r => r.name == name)).length = 1 ∧
        st2.length = st.length + 1) := by
  have hfal : jsFalsyOptStr m.name = false := by
    rw [hname]
    simpa [jsFalsyOptStr] using hnonempty
  have hgetD : m.name.getD [] = name := by rw [hname]; rfl
  constructor
  · intro r0 hfind
    unfold register
    rw [hfal, hgetD, hfind]
    simp only [Bool.false_eq_true, if_false, ite_false]
    refine ⟨_, _, rfl, rfl, rfl, ?_, ?_⟩
    · rw [filter_length_map_name_preserving st _
        (fun r => by by_cases h : (r.name == name) = true <;> simp [h]) name]
      have hmem : r0 ∈ st := List.mem_of_find?_eq_some hfind
      have hpred := List.find?_some hfind
      have hmf : r0 ∈ st.filter (fun r => r.name == name) := List.mem_filter.mpr ⟨hmem, hpred⟩
      have hpos : 0 < (st.filter (fun r => r.name == name)).length :=
        List.length_pos.mpr (List.ne_nil_of_mem hmf)
      omega
    · rw [List.length_map]
  · intro hfind
    unfold register
    rw [hfal, hgetD, hfind]
    simp only [Bool.false_eq_true, if_false, ite_false]
    refine ⟨_, _, rfl, rfl, ?_, ?_⟩
    · rw [List.filter_append, List.length_append]
      have hnil : st.filter (fun r => r.name == name) = [] :=
        List.filter_eq_nil_iff.mpr (fun a ha => by
          have := List.find?_eq_none.mp hfind a ha
          simpa using this)
      rw [hnil]
      simp
    · rw [List.length_append]
      rfl

def regRowWeather : RegRow :=
  { id := "mcp_1700000000000_ab12cd".data, name := "weather".data, version := "1.0.0".data,
    description := "Weather lookup".data, spec := "\x7b\x7d".data, package_path := none,
    docker_image := none, claude_config := "\x7b\x7d".data,
    created_at := "2026-01-01T00:00:00.000Z".data,
    updated_at := "2026-01-01T00:00:00.000Z".data }

def regManifestWeather : RegManifest :=
  { name := some "weather".data, version := some "1.0.1".data,
    description := some "Weather lookup".data, spec := some "\x7b\x7d".data,
    package_path := some "/opt/swarm-mcp-factory/packages/mcp-weather-1.0.1.tgz".data,
    docker_image := none, claude_config := some "\x7b\x7d".data }

/-- Witness for C8: re-registering `weather` over a one-row store returns
`updated` with the old row's id and keeps exactly one `weather` row;
registering it into an empty store returns `created`. -/
theorem register_upsert_witness :
    (∃ res st2,
      register "mcp_2_xyz".data "2026-02-02T00:00:00.000Z".data regManifestWeather
        [regRowWeather] = .ok (res, st2) ∧
      res.action = "updated".data ∧ res.id = regRowWeather.id ∧
      (st2.filter (fun r => r.name == "weather".data)).length = 1 ∧ st2.length = 1) ∧
    (∃ res st2,
      register "mcp_2_xyz".data "2026-02-02T00:00:00.000Z".data regManifestWeather
        [] = .ok (res, st2) ∧
      res.action = "created".data ∧
      (st2.filter (fun r => r.name == "weather".data)).length = 1 ∧ st2.length = 1) := by
  constructor
  · exact (register_upsert "mcp_2_xyz".data "2026-02-02T00:00:00.000Z".data
      regManifestWeather [regRowWeather] "weather".data rfl (by decide) (by decide)).1
      regRowWeather (by decide)
  · exact (register_upsert "mcp_2_xyz".data "2026-02-02T00:00:00.000Z".data
      regManifestWeather [] "weather".data rfl (by decide) (by decide)).2 (by decide)

/-! ## Route handlers over the registry

`GET /api/servers/:name` and `DELETE /api/servers/:name` are modelled over
the same row-list registry state.  Two JavaScript behaviours matter here:

* property lookup and invocation: `registry.unregister(...)` looks up the
  method name on the `MCPRegistry` object; the class defines no `unregister`,
  so the lookup yields `undefined` and the call throws
  `TypeError: registry.unregister is not a function`, landing in the route's
  catch which answers 500;
* a missing `await`: `const server = registry.get(name)` binds the pending
  Promise returned by the async method, an object that is always truthy and
  whose `JSON.stringify` is the empty object. -/

/-- The method names defined on the `MCPRegistry` class. -/
def mcpRegistryMethodNames : List Str :=
  ["init".data, "generateId".data, "register".data, "get".data, "list".data,
   "remove".data, "parseRow".data, "close".data]

/-- A JavaScript value as seen by the route bodies: the pending Promise an
un-awaited async method call evaluates to. -/
inductive JsValue where
  | promiseVal
deriving DecidableEq

/-- A Promise object is truthy. -/
def jsTruthy : JsValue → Bool
  | .promiseVal => true

/-- Invoking `registry.<methodName>(...)`: a defined method (all of them
async) evaluates to a pending Promise; an undefined one throws a TypeError. -/
def callRegistryMethod (methodName : Str) : Except Str JsValue :=
  if mcpRegistryMethodNames.contains methodName then .ok .promiseVal
  else .error ("registry.".data ++ methodName ++ " is not a function".data)

structure DeleteResponse where
  status : Nat
  errorMsg : Option Str
  successName : Option Str
deriving DecidableEq

/-- `DELETE /api/servers/:name`: `const deleted = registry.unregister(name)`;
a throw lands in the catch (500 with the error message); otherwise a falsy
`deleted` answers 404 and a truthy one answers `{success, name}`. -/
def deleteServerHandler (st : List RegRow) (name : Str) : DeleteResponse × List RegRow :=
  match callRegistryMethod "unregister".data with
  | .error msg => ({ status := 500, errorMsg := some msg, successName := none }, st)
  | .ok deleted =>
    if jsTruthy deleted = false then
      ({ status := 404, errorMsg := some "Server not found".data, successName := none }, st)
    else
      ({ status := 200, errorMsg := none, successName := some name }, st)

/-- Claim C9 is what the spec intends; the code instead calls the
non-existent `registry.unregister`: for every registry state and name —
present or absent — the DELETE route throws a TypeError, answers 500 with an
internal error, and never removes anything. -/
theorem deleteServer_always_500 (st : List RegRow) (name : Str) :
    (deleteServerHandler st name).1.status = 500 ∧
    (deleteServerHandler st name).1.errorMsg =
      some "registry.unregister is not a function".data ∧
    (deleteServerHandler st name).1.successName = none ∧
    (deleteServerHandler st name).2 = st := by
  constructor
  · rfl
  constructor
  · rfl
  constructor
  · rfl
  · rfl

/-- `MCPRegistry.get(name)` without a version: under the UNIQUE(name)
constraint at most one row matches, so `ORDER BY updated_at DESC LIMIT 1`
returns the single matching row (modelled as the first match). -/
def registryGetRow (st : List RegRow) (name : Str) : Option RegRow :=
  st.find? (fun r => r.name == name)

inductive ServerBody where
  | emptyObj
  | record (r : RegRow)
  | errorObj (msg : Str)
deriving DecidableEq

structure GetServerResponse where
  status : Nat
  body : ServerBody
deriving DecidableEq

/-- `res.json` of a pending Promise serializes the empty object. -/
def jsonOfJsValue : JsValue → ServerBody
  | .promiseVal => .emptyObj

/-- `GET /api/servers/:name`: `const server = registry.get(req.params.name)`
has no `await`, so `server` is the pending Promise; `if (!server)` tests its
truthiness and `res.json(server)` serializes it. -/
def getServerHandler (_st : List RegRow) (_name : Str) : GetServerResponse :=
  if jsTruthy JsValue.promiseVal = false then
    { status := 404, body := .errorObj "Server not found".data }
  else
    { status := 200, body := jsonOfJsValue JsValue.promiseVal }

/-- Claim C10: for every registry state and every name — registered or not —
the GET route takes the success branch and answers 200: the Promise bound
without `await` is always truthy, so the 404 branch is unreachable, and the
serialized body is the empty object, never carrying the stored row's
fields. -/
theorem getServer_promise_bug (st : List RegRow) (name : Str) :
    (getServerHandler st name).status = 200 ∧
    (getServerHandler st name).body = ServerBody.emptyObj ∧
    (∀ r : RegRow, registryGetRow st name = some r →
      (getServerHandler st name).body ≠ ServerBody.record r) := by
  refine ⟨rfl, rfl, ?_⟩
  intro r _ hc
  exact ServerBody.noConfusion hc

/-- Witness for C10 at a one-row store: `weather` is registered, yet the
route answers 200 with an empty body instead of the stored row. -/
theorem getServer_promise_bug_witness :
    registryGetRow [regRowWeather] "weather".data = some regRowWeather ∧
    (getServerHandler [regRowWeather] "weather".data).status = 200 ∧
    (getServerHandler [regRowWeather] "weather".data).body ≠
      ServerBody.record regRowWeather := by
  refine ⟨by decide, (getServer_promise_bug [regRowWeather] "weather".data).1, ?_⟩
  exact (getServer_promise_bug [regRowWeather] "weather".data).2.2 regRowWeather (by decide)
